import Mathlib

/-
  Verification of `src/src/vg_inspect.py` (cartoonist/gum).

  The repository is a single function `count_chunks(path)` that counts the
  `vg::Graph` chunks of a length-delimited protobuf stream file:

    def count_chunks(path):
        cnt = itertools.count()
        deque(zip(stream.parse(path, vg.Graph), cnt), 0)
        return next(cnt)

  The external collaborator `stream.parse` is modelled from the spec's
  collaborator contract (section 6): it produces a lazy, finite sequence of
  decoded messages, raises a decode error on malformed input, terminates
  cleanly at end-of-file, and raises a file error when the path does not name
  an existing readable file.  The counting idiom itself (itertools.count,
  zip with the counter as second argument, the maxlen-0 deque drain) is
  embedded operationally from the source.
-/

namespace VgInspect

/-- File paths, abstracted as strings. -/
abbrev Path := String

/-- Message-type descriptors (schemas), abstracted as strings. -/
abbrev MsgType := String

/-- Decoded messages; their contents are never inspected by the tool, so an
arbitrary inhabited type with decidable equality suffices. -/
abbrev Msg := Nat

/-- The message type the source fixes internally: `vg.Graph`. -/
def vg_Graph : MsgType := "vg.Graph"

/-- How the record stream produced by the external decoder ends: cleanly at
end-of-file, or by raising a decode error on a malformed record. -/
inductive Terminator where
  | eof
  | decodeError
deriving DecidableEq, Repr

/-- The observable behaviour of the external decoder on one file and one
message type: the records it successfully yields, in order, and how the
stream ends after them. -/
structure StreamOutput where
  records : List Msg
  term : Terminator
deriving DecidableEq, Repr

/-- Status of a path in the file system: missing, present but unreadable, or
readable with a decoding behaviour per message type. -/
inductive FileStatus where
  | absent
  | unreadable
  | readable (decode : MsgType → StreamOutput)

/-- A file system: what each path names. -/
structure FileSystem where
  stat : Path → FileStatus

/-- Errors raised when a path does not name an existing readable file. -/
inductive FileError where
  | notFound
  | permissionDenied
deriving DecidableEq, Repr

/-- Errors that can escape `count_chunks`: a file error from opening the
path, or the decode error of the external decoder, both unchanged. -/
inductive CountError where
  | fileError (e : FileError)
  | decodeError
deriving DecidableEq, Repr

/-- Modelled from the spec: the external streaming decoder `stream.parse`
(the repository imports it from the third-party `stream` library; its code is
not under src/).  Per the spec's collaborator contract it raises a
`FileError` when the path is missing or unreadable and otherwise produces
the lazy record sequence for the requested message type. -/
def stream_parse (fs : FileSystem) (p : Path) (t : MsgType) :
    Except FileError StreamOutput :=
  match fs.stat p with
  | .absent => .error .notFound
  | .unreadable => .error .permissionDenied
  | .readable decode => .ok (decode t)

/-- `itertools.count`: a stateful counter.  `next` on state `c` yields `c`
and leaves the counter in state `c + 1`. -/
def count_next (c : Nat) : Nat × Nat := (c, c + 1)

/-- Python `zip(xs, cnt)` with the finite stream as first argument and the
stateful counter as second argument: each step pulls from the stream first
and, only if the stream yielded an element, pulls from the counter; when the
stream is exhausted, `zip` stops without touching the counter.  Returns the
list of pairs produced and the final counter state. -/
def zip_stream_cnt : List Msg → Nat → List (Msg × Nat) × Nat
  | [], c => ([], c)
  | x :: xs, c =>
      let (y, c') := count_next c
      let (ps, c'') := zip_stream_cnt xs c'
      ((x, y) :: ps, c'')

/-- Python `zip(cnt, xs)` with the counter as FIRST argument (the order the
source's comment warns against): each step pulls from the counter first,
so discovering that the stream is exhausted costs one extra advance of the
counter. -/
def zip_cnt_stream : List Msg → Nat → List (Nat × Msg) × Nat
  | [], c => ([], (count_next c).2)
  | x :: xs, c =>
      let (y, c') := count_next c
      let (ps, c'') := zip_cnt_stream xs c'
      ((y, x) :: ps, c'')

/-- `collections.deque` append under a `maxlen` bound: the new element goes
on the right and elements are discarded from the left until the bound holds.
With `maxlen = 0` every element is discarded immediately. -/
def deque_append (maxlen : Nat) (buf : List α) (x : α) : List α :=
  let b := buf ++ [x]
  b.drop (b.length - maxlen)

/-- `deque(it, maxlen)`: feed every element of the iterator into an initially
empty bounded deque, returning the final buffer. -/
def deque_drain (maxlen : Nat) (xs : List α) : List α :=
  xs.foldl (deque_append maxlen) []

/-- Every intermediate buffer state of `deque_drain`, from the initial empty
buffer through each append. -/
def deque_states (maxlen : Nat) (xs : List α) : List (List α) :=
  xs.scanl (deque_append maxlen) []

/-- Shallow embedding of `count_chunks` from `src/src/vg_inspect.py`: make a
fresh `itertools.count` counter, drain `zip(stream.parse(path, vg.Graph), cnt)`
into a maxlen-0 deque, and return `next(cnt)`.  A file error from opening the
path, or a decode error raised by the stream mid-drain, propagates unchanged
and no count is returned. -/
def count_chunks (fs : FileSystem) (p : Path) : Except CountError Nat :=
  match stream_parse fs p vg_Graph with
  | .error e => .error (.fileError e)
  | .ok out =>
      let cnt := 0
      let zs := zip_stream_cnt out.records cnt
      let _ := deque_drain 0 zs.1
      match out.term with
      | .decodeError => .error .decodeError
      | .eof => .ok (count_next zs.2).1

/-- The contract exactly as the spec words it (section 4.1): a TWO-parameter
function `count_chunks(path, message_type)` where the caller supplies the
message-type descriptor.  Used to compare the spec's claimed interface with
the source's one-parameter function. -/
def count_chunks_spec (fs : FileSystem) (p : Path) (t : MsgType) :
    Except CountError Nat :=
  match stream_parse fs p t with
  | .error e => .error (.fileError e)
  | .ok out =>
      match out.term with
      | .decodeError => .error .decodeError
      | .eof => .ok out.records.length

/-- The count_chunks idiom in isolation, on a bare finite stream: fresh
counter, zip-drain, `next`. -/
def idiom_count (xs : List Msg) : Nat :=
  let zs := zip_stream_cnt xs 0
  let _ := deque_drain 0 zs.1
  (count_next zs.2).1

/-- A plain fold that increments a scalar counter once per element. -/
def loop_count (xs : List Msg) : Nat :=
  xs.foldl (fun acc _ => acc + 1) 0

/-- File-handle and write events, for the side-effect contract. -/
inductive Event where
  | openHandle (p : Path)
  | closeHandle (p : Path)
  | writeFile (p : Path)
deriving DecidableEq, Repr

/-- The world a call runs in: the file system plus an abstract piece of
global mutable state (the tool defines none, so it is just carried). -/
structure World where
  fs : FileSystem
  globalState : Nat

/-- Modelled from the spec: `count_chunks` as a world transformer that also
records its file-handle event trace (the handle is acquired and released by
the external `stream.parse`, whose code is not under src/; the spec states
scoped acquisition, released on all exit paths).  Returns the result, the
world after the call, and the events. -/
def count_chunks_run (w : World) (p : Path) :
    Except CountError Nat × World × List Event :=
  match w.fs.stat p with
  | .absent => (.error (.fileError .notFound), w, [])
  | .unreadable => (.error (.fileError .permissionDenied), w, [])
  | .readable decode =>
      let out := decode vg_Graph
      let zs := zip_stream_cnt out.records 0
      let _ := deque_drain 0 zs.1
      match out.term with
      | .decodeError =>
          (.error .decodeError, w, [.openHandle p, .closeHandle p])
      | .eof =>
          (.ok (count_next zs.2).1, w, [.openHandle p, .closeHandle p])

/-! ### Concrete file systems used as witnesses -/

/-- A file system where no path exists. -/
def fsMissing : FileSystem := ⟨fun _ => .absent⟩

/-- A file system where every path names a file whose stream raises a decode
error after yielding two records. -/
def fsCorrupt : FileSystem :=
  ⟨fun _ => .readable (fun _ => ⟨[7, 8], .decodeError⟩)⟩

/-- A file system where every path names a well-formed file of three
records. -/
def fsThree : FileSystem :=
  ⟨fun _ => .readable (fun _ => ⟨[10, 20, 30], .eof⟩)⟩

/-- A file system where every path names a well-formed empty file. -/
def fsEmpty : FileSystem :=
  ⟨fun _ => .readable (fun _ => ⟨[], .eof⟩)⟩

/-- A file system where every path names a file that decodes to two records
as `vg.Graph` but to five records under any other schema. -/
def fsTwoTypes : FileSystem :=
  ⟨fun _ => .readable
    (fun t => if t = vg_Graph then ⟨[1, 2], .eof⟩ else ⟨[1, 2, 3, 4, 5], .eof⟩)⟩

/-! ### Helper lemmas -/

/-- Draining `zip(stream, cnt)` leaves the counter advanced exactly once per
stream element. -/
theorem zip_stream_cnt_snd (xs : List Msg) (c : Nat) :
    (zip_stream_cnt xs c).2 = c + xs.length := by
  induction xs generalizing c with
  | nil => simp [zip_stream_cnt]
  | cons x xs ih =>
      simp only [zip_stream_cnt, count_next, List.length_cons, ih]
      omega

/-- With the counter as first `zip` argument, the final counter state is one
larger: exhaustion of the stream costs an extra advance. -/
theorem zip_cnt_stream_snd (xs : List Msg) (c : Nat) :
    (zip_cnt_stream xs c).2 = c + xs.length + 1 := by
  induction xs generalizing c with
  | nil => simp [zip_cnt_stream, count_next]
  | cons x xs ih =>
      simp only [zip_cnt_stream, count_next, List.length_cons, ih]
      omega

/-- A plain counting fold computes the stream length. -/
theorem loop_count_eq_length (xs : List Msg) : loop_count xs = xs.length := by
  have h : ∀ (ys : List Msg) (a : Nat),
      ys.foldl (fun acc _ => acc + 1) a = a + ys.length := by
    intro ys
    induction ys with
    | nil => intro a; simp
    | cons y ys ih => intro a; simp [ih]; omega
  simpa using h xs 0

/-- Appending to a maxlen-0 deque discards the element: the buffer stays
empty. -/
theorem deque_append_zero (buf : List α) (x : α) :
    deque_append 0 buf x = [] := by
  simp [deque_append]

/-- The implemented one-parameter `count_chunks` behaves exactly as the
spec's two-parameter contract specialized to the internally fixed type
`vg.Graph`. -/
theorem count_chunks_char (fs : FileSystem) (p : Path) :
    count_chunks fs p = count_chunks_spec fs p vg_Graph := by
  unfold count_chunks count_chunks_spec
  cases hsp : stream_parse fs p vg_Graph with
  | error e => rfl
  | ok out =>
      cases ht : out.term with
      | decodeError => simp [ht]
      | eof => simp [ht, count_next, zip_stream_cnt_snd]

/-- The world transformer leaves the world unchanged on every exit path. -/
theorem count_chunks_run_world (w : World) (p : Path) :
    (count_chunks_run w p).2.1 = w := by
  unfold count_chunks_run
  cases h : w.fs.stat p with
  | absent => rfl
  | unreadable => rfl
  | readable decode => cases ht : (decode vg_Graph).term <;> simp [ht]

/-- The result component of the world transformer is the pure
`count_chunks` of the world's file system. -/
theorem count_chunks_run_fst (w : World) (p : Path) :
    (count_chunks_run w p).1 = count_chunks w.fs p := by
  unfold count_chunks_run count_chunks stream_parse
  cases h : w.fs.stat p with
  | absent => rfl
  | unreadable => rfl
  | readable decode => cases ht : (decode vg_Graph).term <;> simp [ht]

/-- Is an event a write? `count_chunks` never performs one. -/
def isWrite : Event → Bool
  | .writeFile _ => true
  | _ => false

/-! ### Claim theorems -/

/-- Claim C1: for every well-formed input file containing exactly `n`
length-delimited records of the target message type, `count_chunks` applied
to that file returns `n`, including the empty-file case `n = 0`. -/
theorem count_chunks_counts_all_records (fs : FileSystem) (p : Path)
    (decode : MsgType → StreamOutput) (n : Nat)
    (hstat : fs.stat p = .readable decode)
    (hterm : (decode vg_Graph).term = .eof)
    (hlen : (decode vg_Graph).records.length = n) :
    count_chunks fs p = .ok n := by
  rw [count_chunks_char]
  unfold count_chunks_spec stream_parse
  rw [hstat]
  simp [hterm, hlen]

/-- Witness for C1: a three-record file counts to 3 and an empty file counts
to 0. -/
theorem count_chunks_counts_all_records_witness :
    count_chunks fsThree "three.vg" = .ok 3 ∧
    count_chunks fsEmpty "empty.vg" = .ok 0 :=
  ⟨count_chunks_counts_all_records fsThree "three.vg"
      (fun _ => ⟨[10, 20, 30], .eof⟩) 3 rfl rfl rfl,
   count_chunks_counts_all_records fsEmpty "empty.vg"
      (fun _ => ⟨[], .eof⟩) 0 rfl rfl rfl⟩

/-- Claim C2 counterexample: the claim says the message type is a parameter
of the public interface, not fixed internally.  In the source,
`count_chunks(path)` takes only a path and hardcodes `vg.Graph`.  On a file
that decodes to 2 records as `vg.Graph` but 5 records under another schema,
`count_chunks` returns 2, and no argument of its interface can make it
return the other schema's count of 5. -/
theorem message_type_fixed_internally_cex :
    count_chunks fsTwoTypes "x.vg" = .ok 2 ∧
    count_chunks_spec fsTwoTypes "x.vg" "other.Type" = .ok 5 ∧
    count_chunks fsTwoTypes "x.vg" ≠ count_chunks_spec fsTwoTypes "x.vg" "other.Type" := by
  refine ⟨rfl, rfl, ?_⟩
  intro hcontra
  have h2 : (Except.ok 2 : Except CountError Nat) = Except.ok 5 := hcontra
  simp at h2

/-- Claim C2 amended: `count_chunks` is a function of one input — a file
path — with the message type fixed internally to `vg.Graph`; it behaves as
the spec's two-parameter contract specialized to `vg.Graph` and returns a
non-negative integer when it completes. -/
theorem count_chunks_one_param_fixed_type (fs : FileSystem) (p : Path) :
    count_chunks fs p = count_chunks_spec fs p vg_Graph :=
  count_chunks_char fs p

/-- Claim C3: the zip/deque/itertools.count draining idiom computes the same
value as a plain fold that increments a scalar counter once per element
produced by the stream iterator, for every finite stream. -/
theorem idiom_count_eq_loop_count (xs : List Msg) :
    idiom_count xs = loop_count xs := by
  simp [idiom_count, loop_count_eq_length, count_next, zip_stream_cnt_snd]

/-- Claim C4: when `count_chunks` fails it returns no partial count — a file
error or the stream's decode error propagates to the caller unchanged, and a
numeric result is only returned when the whole stream was traversed to a
clean end-of-file. -/
theorem error_propagates_all_or_nothing (fs : FileSystem) (p : Path) :
    (∀ e, stream_parse fs p vg_Graph = .error e →
        count_chunks fs p = .error (.fileError e)) ∧
    (∀ out, stream_parse fs p vg_Graph = .ok out → out.term = .decodeError →
        count_chunks fs p = .error .decodeError) ∧
    (∀ n, count_chunks fs p = .ok n →
        ∀ out, stream_parse fs p vg_Graph = .ok out → out.term = .eof) := by
  refine ⟨?_, ?_, ?_⟩
  · intro e he
    rw [count_chunks_char]
    unfold count_chunks_spec
    rw [he]
  · intro out ho ht
    rw [count_chunks_char]
    unfold count_chunks_spec
    rw [ho]
    simp [ht]
  · intro n hn out ho
    obtain ⟨recs, term⟩ := out
    cases term with
    | eof => rfl
    | decodeError =>
        rw [count_chunks_char] at hn
        unfold count_chunks_spec at hn
        rw [ho] at hn
        exact absurd hn (by simp)

/-- Witness for C4: a missing file propagates the file error unchanged, and
a stream that raises a decode error after two records yields the decode
error and no count. -/
theorem error_propagates_all_or_nothing_witness :
    count_chunks fsMissing "a.vg" = .error (.fileError .notFound) ∧
    count_chunks fsCorrupt "b.vg" = .error .decodeError :=
  ⟨(error_propagates_all_or_nothing fsMissing "a.vg").1 .notFound rfl,
   (error_propagates_all_or_nothing fsCorrupt "b.vg").2.1
      ⟨[7, 8], .decodeError⟩ rfl rfl⟩

/-- Claim C5: for every path that does not name an existing readable file,
`count_chunks` raises a file error and never returns a numeric result. -/
theorem missing_file_raises (fs : FileSystem) (p : Path)
    (h : fs.stat p = .absent ∨ fs.stat p = .unreadable) :
    (count_chunks fs p = .error (.fileError .notFound) ∨
     count_chunks fs p = .error (.fileError .permissionDenied)) ∧
    ∀ n, count_chunks fs p ≠ .ok n := by
  have hmain : count_chunks fs p = .error (.fileError .notFound) ∨
      count_chunks fs p = .error (.fileError .permissionDenied) := by
    unfold count_chunks stream_parse
    rcases h with h | h <;> rw [h]
    · exact Or.inl rfl
    · exact Or.inr rfl
  refine ⟨hmain, ?_⟩
  intro n hn
  rcases hmain with he | he <;> rw [he] at hn <;> exact Except.noConfusion hn

/-- Witness for C5: a path absent from the file system raises the
`notFound` file error. -/
theorem missing_file_raises_witness :
    count_chunks fsMissing "ghost.vg" = .error (.fileError .notFound) ∨
    count_chunks fsMissing "ghost.vg" = .error (.fileError .permissionDenied) :=
  (missing_file_raises fsMissing "ghost.vg" (Or.inl rfl)).1

/-- Claim C6: calling `count_chunks` twice in succession on the same
unmodified file returns equal counts both times; no state persists from the
first call into the second (the world after the first call is unchanged, and
each call builds its counter and stream afresh from that world). -/
theorem count_chunks_idempotent (w : World) (p : Path) :
    (count_chunks_run w p).2.1 = w ∧
    (count_chunks_run (count_chunks_run w p).2.1 p).1 = (count_chunks_run w p).1 := by
  refine ⟨count_chunks_run_world w p, ?_⟩
  rw [count_chunks_run_world]

/-- Claim C7: `count_chunks` performs no writes and mutates no global state:
the world is returned unchanged on every exit path, the event trace contains
no write, and it is either empty (the open itself failed, so no handle was
acquired) or exactly one open of the path followed by its close — including
on the decode-error path. -/
theorem count_chunks_frame (w : World) (p : Path) :
    (count_chunks_run w p).2.1 = w ∧
    ((count_chunks_run w p).2.2 = [] ∨
      (count_chunks_run w p).2.2 = [Event.openHandle p, Event.closeHandle p]) ∧
    ((count_chunks_run w p).2.2).filter isWrite = [] := by
  have htr : (count_chunks_run w p).2.2 = [] ∨
      (count_chunks_run w p).2.2 = [Event.openHandle p, Event.closeHandle p] := by
    unfold count_chunks_run
    cases h : w.fs.stat p with
    | absent => exact Or.inl rfl
    | unreadable => exact Or.inl rfl
    | readable decode => cases ht : (decode vg_Graph).term <;> simp [ht]
  refine ⟨count_chunks_run_world w p, htr, ?_⟩
  rcases htr with h | h <;> rw [h] <;> rfl

/-- Claim C8: whenever `count_chunks` returns, the result is a non-negative
integer equal to the number of successfully decoded records, and the count
is computed fresh on every call from the file system alone — never cached or
persisted (a run in any world with this file system yields the same pure
result). -/
theorem count_chunks_exact_and_fresh (fs : FileSystem) (p : Path)
    (n g : Nat) (out : StreamOutput)
    (h : count_chunks fs p = .ok n)
    (hsp : stream_parse fs p vg_Graph = .ok out) :
    0 ≤ n ∧ out.term = .eof ∧ n = out.records.length ∧
    (count_chunks_run ⟨fs, g⟩ p).1 = count_chunks fs p := by
  obtain ⟨recs, term⟩ := out
  rw [count_chunks_char] at h
  unfold count_chunks_spec at h
  rw [hsp] at h
  cases term with
  | decodeError => exact absurd h (by simp)
  | eof =>
      simp only [Except.ok.injEq] at h
      refine ⟨Nat.zero_le n, rfl, ?_, count_chunks_run_fst ⟨fs, g⟩ p⟩
      exact h.symm

/-- Witness for C8: the three-record file counts to 3 = the number of
decoded records, and the run in a world carrying arbitrary global state 5
returns the same pure result. -/
theorem count_chunks_exact_and_fresh_witness :
    0 ≤ 3 ∧ (⟨[10, 20, 30], .eof⟩ : StreamOutput).term = .eof ∧
    3 = (⟨[10, 20, 30], .eof⟩ : StreamOutput).records.length ∧
    (count_chunks_run ⟨fsThree, 5⟩ "w.vg").1 = count_chunks fsThree "w.vg" :=
  count_chunks_exact_and_fresh fsThree "w.vg" 3 5 ⟨[10, 20, 30], .eof⟩
    rfl rfl

/-- Claim C9: the traversal retains no decoded records — every intermediate
buffer state of the maxlen-0 deque drain that `count_chunks` performs is
empty, and the final buffer is empty, so only the scalar counter is carried
across the run. -/
theorem traversal_retains_no_records (xs : List (Msg × Nat)) :
    deque_states 0 xs = List.replicate (xs.length + 1) [] ∧
    deque_drain 0 xs = [] := by
  constructor
  · induction xs with
    | nil => rfl
    | cons x xs ih =>
        simp only [deque_states, List.scanl] at ih ⊢
        rw [deque_append_zero]
        simp [ih, List.replicate_succ]
  · have h : ∀ ys : List (Msg × Nat), ys.foldl (deque_append 0) [] = [] := by
      intro ys
      induction ys with
      | nil => rfl
      | cons y ys ih => simp only [List.foldl, deque_append_zero]; exact ih
    exact h xs

/-- Claim C10: with the counter as second `zip` argument, draining the
zipped pair advances the counter exactly once per stream element — never an
extra time on stream exhaustion — so `next(cnt)` after the drain equals the
number of elements produced; by contrast, placing the counter first costs
one extra advance. -/
theorem cnt_second_no_overcount (xs : List Msg) (c : Nat) :
    (zip_stream_cnt xs c).2 = c + xs.length ∧
    (count_next (zip_stream_cnt xs 0).2).1 = xs.length ∧
    (zip_cnt_stream xs c).2 = c + xs.length + 1 := by
  refine ⟨zip_stream_cnt_snd xs c, ?_, zip_cnt_stream_snd xs c⟩
  simp [count_next, zip_stream_cnt_snd]

end VgInspect
